import Mathlib

/-!
Verification development for the sunrise zero-copy frame buffer pipeline.

Shallow embedding of:
* the export protocol engine (`src/comp/src/export_dmabuf.rs`, `request` for
  `ZwlrExportDmabufManagerV1`),
* the consumer buffer pool (`src/gst-plugin-wayland-display/src/buffer_pool/imp.rs`,
  `alloc_buffer` and `set_config`),
* allocator selection (`src/gst-plugin-wayland-display/src/waylandsrc/imp.rs`,
  `decide_allocation`) and `DmaHeapMemoryAllocator::is_available`,
* the producer frame request (`waylandsrc/imp.rs`, `PushSrcImpl::create`).

External effects (file seeks, GStreamer library calls, channel sends) are
modelled as injected environments; machine integer casts (`as u32`) are
modelled as `% 2 ^ 32` on `Nat`.
-/

namespace Sunrise

/-! ## Export protocol engine (src/comp/src/export_dmabuf.rs) -/

/-- `zwlr_export_dmabuf_frame_v1::CancelReason`. -/
inductive CancelReason
  | Temporary
  | Permanent
  | Resizing
deriving DecidableEq, Repr

/-- `CaptureError` (the `Box<dyn Error>` payloads only feed `eprintln!` and are dropped). -/
inductive CaptureError
  | Temporary
  | Permanent
  | Resizing
deriving DecidableEq, Repr

/-- One plane of a dmabuf: the plane's fd handle, offset and stride, as iterated by
`dmabuf.handles().zip(dmabuf.offsets().zip(dmabuf.strides()))`. -/
structure Plane where
  fd : Nat
  offset : Nat
  stride : Nat
deriving DecidableEq, Repr

/-- The data of a `smithay` `Dmabuf` that the exporter and the buffer pool read:
width, height, `y_inverted`, the fourcc format code, the (64-bit) modifier, and the
plane list. -/
structure DmabufRec where
  width : Nat
  height : Nat
  yInverted : Bool
  formatCode : Nat
  modifier : Nat
  planes : List Plane
deriving DecidableEq, Repr

/-- `Capture { dmabuf, presentation_time }`; instants are modelled as nanoseconds. -/
structure Capture where
  dmabuf : DmabufRec
  presentationTime : Nat
deriving DecidableEq, Repr

/-- `Flags::Transient` passed to the `frame` event. -/
def transientFlag : Nat := 1

/-- The wire events of `zwlr_export_dmabuf_frame_v1` that the engine can emit. -/
inductive Event
  | frame (width height x y bufferFlags flags formatCode modHi modLo numObjects : Nat)
  | object (index fd size offset stride planeIndex : Nat)
  | ready (secHi secLo nsec : Nat)
  | cancel (reason : CancelReason)
deriving DecidableEq, Repr

def Event.isObject : Event → Bool
  | .object .. => true
  | _ => false

def Event.isCancel : Event → Bool
  | .cancel _ => true
  | _ => false

def Event.isFrame : Event → Bool
  | .frame .. => true
  | _ => false

def Event.isReady : Event → Bool
  | .ready .. => true
  | _ => false

/-- The OS-level behaviour of the per-plane `File` operations:
`sizeOf fd` is the result of `file.seek(SeekFrom::End(0))` (`none` on I/O error),
`rewindOk fd` is whether `file.rewind()` succeeds. -/
structure SeekEnv where
  sizeOf : Nat → Option Nat
  rewindOk : Nat → Bool

/-- The per-plane loop of the `CaptureOutput` arm (export_dmabuf.rs lines 132-156).
For each plane the fd is wrapped via `File::from_raw_fd`, seeked to its end for the
size, rewound, then released again with `into_raw_fd` and passed to `frame.object`
(`size as u32` becomes `% 2 ^ 32`).  On a seek or rewind error the code emits
`cancel(Temporary)` and returns; the wrapping `File` is dropped there, which closes
the plane's fd (returned in the second component as the list of closed fds). -/
def emitPlanes (env : SeekEnv) : Nat → List Plane → List Event × List Nat × Bool
  | _, [] => ([], [], true)
  | i, p :: rest =>
    match env.sizeOf p.fd with
    | none => ([Event.cancel .Temporary], [p.fd], false)
    | some size =>
      if env.rewindOk p.fd then
        let r := emitPlanes env (i + 1) rest
        (Event.object i p.fd (size % 2 ^ 32) p.offset p.stride i :: r.1, r.2)
      else
        ([Event.cancel .Temporary], [p.fd], false)

/-- The `frame.frame(..)` header event built on the `Ok` path
(export_dmabuf.rs lines 120-131). -/
def headerOf (cap : Capture) : Event :=
  Event.frame cap.dmabuf.width cap.dmabuf.height 0 0
    (if cap.dmabuf.yInverted then 1 else 0) transientFlag cap.dmabuf.formatCode
    ((cap.dmabuf.modifier >>> 32) % 2 ^ 32) (cap.dmabuf.modifier % 2 ^ 32)
    (cap.dmabuf.planes.length % 2 ^ 32)

/-- The `frame.ready(..)` event (export_dmabuf.rs lines 157-163): the duration
`presentation_time.duration_since(start_time)` (saturating, like `Nat` subtraction)
split into `(tv_sec >> 32) as u32`, `(tv_sec & 0xFFFFFFFF) as u32`, `tv_nsec`. -/
def readyOf (cap : Capture) (startTime : Nat) : Event :=
  Event.ready ((((cap.presentationTime - startTime) / 1000000000) >>> 32) % 2 ^ 32)
    (((cap.presentationTime - startTime) / 1000000000) % 2 ^ 32)
    ((cap.presentationTime - startTime) % 1000000000)

/-- The `CaptureError → CancelReason` mapping of the `Err` arm
(export_dmabuf.rs lines 165-179). -/
def mapCancel : CaptureError → CancelReason
  | .Temporary => .Temporary
  | .Permanent => .Permanent
  | .Resizing => .Resizing

/-- The `CaptureOutput` arm of `request` (export_dmabuf.rs lines 110-181), given the
result of the injected `capture_frame` handler and the handler's `start_time` (in
nanoseconds).  Returns the emitted event sequence and the list of fds that got
closed along the way. -/
def requestCaptureOutput (env : SeekEnv) (result : Except CaptureError Capture)
    (startTime : Nat) : List Event × List Nat :=
  match result with
  | .ok cap =>
    if (emitPlanes env 0 cap.dmabuf.planes).2.2 then
      (headerOf cap :: (emitPlanes env 0 cap.dmabuf.planes).1 ++ [readyOf cap startTime],
       (emitPlanes env 0 cap.dmabuf.planes).2.1)
    else
      (headerOf cap :: (emitPlanes env 0 cap.dmabuf.planes).1,
       (emitPlanes env 0 cap.dmabuf.planes).2.1)
  | .error e => ([Event.cancel (mapCancel e)], [])

/-- The planes of the descriptor a handler result carries. -/
def planesOf : Except CaptureError Capture → List Plane
  | .ok cap => cap.dmabuf.planes
  | .error _ => []

/-- The object-event sequence produced when every plane's size query and rewind
succeed: one event per plane, indexed from `i`. -/
def objectsFrom (env : SeekEnv) : Nat → List Plane → List Event
  | _, [] => []
  | i, p :: rest =>
    Event.object i p.fd (((env.sizeOf p.fd).getD 0) % 2 ^ 32) p.offset p.stride i
      :: objectsFrom env (i + 1) rest

/-- Number of plane (`object`) events in an event sequence. -/
def countObjects (evs : List Event) : Nat := (evs.filter Event.isObject).length

/-- Every header event in the sequence announces exactly as many objects as the
sequence contains. -/
def headerCountsMatch (evs : List Event) : Bool :=
  evs.all fun e => match e with
    | .frame _ _ _ _ _ _ _ _ _ n => countObjects evs == n
    | _ => true

/-- The sequence is exactly one cancellation event and nothing else. -/
def singleCancel : List Event → Bool
  | [Event.cancel _] => true
  | _ => false

/-- No cancellation occurs in the sequence. -/
def noCancel (evs : List Event) : Bool := evs.all fun e => !e.isCancel

/-- The per-request protocol invariant as the spec states it: exactly one of
{success event sequence, a single cancellation} — a header is never emitted
without a matching count of plane events, and nothing follows a cancellation. -/
def exportInvariant (evs : List Event) : Bool :=
  (singleCancel evs || noCancel evs) && headerCountsMatch evs

theorem emitPlanes_cases (env : SeekEnv) (ps : List Plane) (i : Nat) :
    emitPlanes env i ps = (objectsFrom env i ps, [], true) ∨
    ∃ objs fd, (emitPlanes env i ps).1 = objs ++ [Event.cancel .Temporary] ∧
      objs.all Event.isObject = true ∧ objs.length < ps.length ∧
      (emitPlanes env i ps).2 = ([fd], false) := by
  induction ps generalizing i with
  | nil => exact Or.inl rfl
  | cons p rest ih =>
    cases hso : env.sizeOf p.fd with
    | none =>
      refine Or.inr ⟨[], p.fd, ?_, rfl, by simp, ?_⟩ <;>
        simp [emitPlanes, hso]
    | some s =>
      cases hr : env.rewindOk p.fd with
      | false =>
        refine Or.inr ⟨[], p.fd, ?_, rfl, by simp, ?_⟩ <;>
          simp [emitPlanes, hso, hr]
      | true =>
        rcases ih (i + 1) with hok | ⟨objs, fd, h1, h2, h3, h4⟩
        · exact Or.inl (by simp [emitPlanes, hso, hr, hok, objectsFrom])
        · refine Or.inr ⟨Event.object i p.fd (s % 2 ^ 32) p.offset p.stride i :: objs, fd,
            ?_, ?_, ?_, ?_⟩
          · simp [emitPlanes, hso, hr, h1]
          · simp [Event.isObject, h2]
          · simpa using Nat.succ_lt_succ h3
          · simp [emitPlanes, hso, hr, h4]

theorem emitPlanes_success (env : SeekEnv) (ps : List Plane) (i : Nat)
    (h : ps.all (fun p => (env.sizeOf p.fd).isSome && env.rewindOk p.fd) = true) :
    emitPlanes env i ps = (objectsFrom env i ps, [], true) := by
  induction ps generalizing i with
  | nil => rfl
  | cons p rest ih =>
    simp only [List.all_cons, Bool.and_eq_true] at h
    obtain ⟨⟨hs, hr⟩, hrest⟩ := h
    cases hso : env.sizeOf p.fd with
    | none => rw [hso] at hs; cases hs
    | some s => simp [emitPlanes, hso, hr, ih (i + 1) hrest, objectsFrom]

theorem objectsFrom_all_not_cancel (env : SeekEnv) (ps : List Plane) (i : Nat) :
    (objectsFrom env i ps).all (fun e => !e.isCancel) = true := by
  induction ps generalizing i with
  | nil => rfl
  | cons p rest ih =>
    have h := ih (i + 1)
    simp only [objectsFrom, List.all_cons, Event.isCancel, Bool.not_false, Bool.true_and]
    exact h

theorem objectsFrom_length (env : SeekEnv) (ps : List Plane) (i : Nat) :
    (objectsFrom env i ps).length = ps.length := by
  induction ps generalizing i with
  | nil => rfl
  | cons p rest ih => simp [objectsFrom, ih (i + 1)]

theorem objectsFrom_all_isObject (env : SeekEnv) (ps : List Plane) (i : Nat) :
    (objectsFrom env i ps).all Event.isObject = true := by
  induction ps generalizing i with
  | nil => rfl
  | cons p rest ih =>
    have h := ih (i + 1)
    simp only [objectsFrom, List.all_cons, Event.isObject, Bool.true_and]
    exact h

theorem all_isObject_not_cancel (evs : List Event) (h : evs.all Event.isObject = true) :
    evs.all (fun e => !e.isCancel) = true := by
  rw [List.all_eq_true] at h ⊢
  intro e he
  have := h e he
  cases e <;> simp_all [Event.isObject, Event.isCancel]

theorem emitPlanes_object_mem (env : SeekEnv) (ps : List Plane) :
    ∀ (i j f sz off str pi : Nat),
      Event.object j f sz off str pi ∈ (emitPlanes env i ps).1 →
      ∃ k p, ps.get? k = some p ∧ j = i + k ∧ p.fd = f ∧ off = p.offset ∧ str = p.stride ∧
        pi = j ∧ ∃ s0, env.sizeOf f = some s0 ∧ sz = s0 % 2 ^ 32 ∧ env.rewindOk f = true := by
  induction ps with
  | nil => intro i j f sz off str pi h; simp [emitPlanes] at h
  | cons p rest ih =>
    intro i j f sz off str pi h
    cases hso : env.sizeOf p.fd with
    | none => simp [emitPlanes, hso] at h
    | some s =>
      cases hr : env.rewindOk p.fd with
      | false => simp [emitPlanes, hso, hr] at h
      | true =>
        simp only [emitPlanes, hso, hr, if_true, List.mem_cons] at h
        rcases h with h | h
        · obtain ⟨hj, hf, hsz, hoff, hstr, hpi⟩ := Event.object.inj h
          subst hj; subst hf; subst hsz; subst hoff; subst hstr; subst hpi
          exact ⟨0, p, rfl, rfl, rfl, rfl, rfl, rfl, s, hso, rfl, hr⟩
        · obtain ⟨k, q, hget, hj, rest'⟩ := ih (i + 1) j f sz off str pi h
          exact ⟨k + 1, q, by simpa using hget, by omega, rest'⟩

theorem emitPlanes_closed_mem (env : SeekEnv) (ps : List Plane) :
    ∀ (i f : Nat), f ∈ (emitPlanes env i ps).2.1 →
      ∃ p ∈ ps, p.fd = f ∧ (env.sizeOf f = none ∨ env.rewindOk f = false) := by
  induction ps with
  | nil => intro i f h; simp [emitPlanes] at h
  | cons p rest ih =>
    intro i f h
    cases hso : env.sizeOf p.fd with
    | none =>
      simp only [emitPlanes, hso, List.mem_singleton] at h
      exact ⟨p, List.mem_cons_self _ _, h.symm, Or.inl (by rw [h]; exact hso)⟩
    | some s =>
      cases hr : env.rewindOk p.fd with
      | false =>
        simp [emitPlanes, hso, hr] at h
        exact ⟨p, List.mem_cons_self _ _, h.symm, Or.inr (by rw [h]; exact hr)⟩
      | true =>
        simp only [emitPlanes, hso, hr, if_true] at h
        obtain ⟨q, hq, rest'⟩ := ih (i + 1) f h
        exact ⟨q, List.mem_cons_of_mem _ hq, rest'⟩

/-- Concrete seek environment in which every size query fails with an I/O error. -/
def seekFailEnv : SeekEnv := ⟨fun _ => none, fun _ => true⟩

/-- Concrete seek environment in which every plane fd reports size 4096. -/
def seekOkEnv : SeekEnv := ⟨fun _ => some 4096, fun _ => true⟩

/-- Concrete one-plane capture result: 1920x1080, XRGB-like format code, linear
modifier, one plane on fd 5 with stride 7680, presented 1.5 s after start. -/
def capOnePlane : Capture :=
  ⟨⟨1920, 1080, false, 875713112, 0, [⟨5, 0, 7680⟩]⟩, 1500000000⟩

/-- C1.  COUNTEREXAMPLE: with a capture whose (single) plane size query fails with
an I/O error, the engine emits the header event and then a `cancel(Temporary)` —
a header with no matching plane events, and an event stream that is neither the
success sequence nor a single cancellation alone.  The claimed invariant
`exportInvariant` is violated. -/
theorem export_invariant_violated_on_seek_error :
    (requestCaptureOutput seekFailEnv (.ok capOnePlane) 0).1 =
      [headerOf capOnePlane, Event.cancel .Temporary] ∧
    exportInvariant (requestCaptureOutput seekFailEnv (.ok capOnePlane) 0).1 = false := by
  exact ⟨by decide, by decide⟩

/-- C1 (amended).  Every capture request emits exactly one of: (a) a single
cancellation (handler error), (b) the full success sequence header/planes/ready,
or (c) a header followed by fewer plane events than planes and a final
`cancel(Temporary)` when a plane size query or rewind fails; in all cases no
event follows a cancellation. -/
theorem export_request_event_trichotomy (env : SeekEnv)
    (result : Except CaptureError Capture) (startTime : Nat) :
    (requestCaptureOutput env result startTime).1.dropLast.all (fun e => !e.isCancel) = true ∧
    ((∃ e, result = .error e ∧
        (requestCaptureOutput env result startTime).1 = [Event.cancel (mapCancel e)]) ∨
     (∃ cap, result = .ok cap ∧
        ((requestCaptureOutput env result startTime).1 =
            headerOf cap :: objectsFrom env 0 cap.dmabuf.planes ++ [readyOf cap startTime] ∨
         ∃ objs, (requestCaptureOutput env result startTime).1 =
              headerOf cap :: objs ++ [Event.cancel .Temporary] ∧
            objs.all Event.isObject = true ∧ objs.length < cap.dmabuf.planes.length))) := by
  cases result with
  | error e =>
    refine ⟨?_, Or.inl ⟨e, rfl, rfl⟩⟩
    simp [requestCaptureOutput]
  | ok cap =>
    rcases emitPlanes_cases env cap.dmabuf.planes 0 with hok | ⟨objs, fd, h1, h2, h3, h4⟩
    · have hevs : (requestCaptureOutput env (.ok cap) startTime).1 =
          headerOf cap :: objectsFrom env 0 cap.dmabuf.planes ++ [readyOf cap startTime] := by
        simp [requestCaptureOutput, hok]
      refine ⟨?_, Or.inr ⟨cap, rfl, Or.inl hevs⟩⟩
      rw [hevs]
      show ((headerOf cap :: objectsFrom env 0 cap.dmabuf.planes)
        ++ [readyOf cap startTime]).dropLast.all (fun e => !e.isCancel) = true
      rw [List.dropLast_concat, List.all_cons, Bool.and_eq_true]
      exact ⟨by simp [headerOf, Event.isCancel], objectsFrom_all_not_cancel env _ 0⟩
    · have h22 : (emitPlanes env 0 cap.dmabuf.planes).2.2 = false := by rw [h4]
      have hevs : (requestCaptureOutput env (.ok cap) startTime).1 =
          headerOf cap :: objs ++ [Event.cancel .Temporary] := by
        simp [requestCaptureOutput, h22, h1]
      refine ⟨?_, Or.inr ⟨cap, rfl, Or.inr ⟨objs, hevs, h2, h3⟩⟩⟩
      rw [hevs]
      show ((headerOf cap :: objs) ++ [Event.cancel .Temporary]).dropLast.all
        (fun e => !e.isCancel) = true
      rw [List.dropLast_concat, List.all_cons, Bool.and_eq_true]
      exact ⟨by simp [headerOf, Event.isCancel], all_isObject_not_cancel objs h2⟩

/-- C1 (amended): witness at a concrete input with a failing plane size query. -/
theorem export_request_event_trichotomy_witness :
    (requestCaptureOutput seekFailEnv (.ok capOnePlane) 0).1.dropLast.all
      (fun e => !e.isCancel) = true :=
  (export_request_event_trichotomy seekFailEnv (.ok capOnePlane) 0).1

/-- C2.  COUNTEREXAMPLE: a request whose handler returns `Ok` but whose plane size
query fails does NOT emit the header/planes/ready success sequence: it emits a
cancellation and no ready event. -/
theorem capture_ok_not_always_success_sequence :
    (requestCaptureOutput seekFailEnv (.ok capOnePlane) 0).1 ≠
      headerOf capOnePlane :: objectsFrom seekFailEnv 0 capOnePlane.dmabuf.planes
        ++ [readyOf capOnePlane 0] ∧
    Event.cancel .Temporary ∈ (requestCaptureOutput seekFailEnv (.ok capOnePlane) 0).1 ∧
    (requestCaptureOutput seekFailEnv (.ok capOnePlane) 0).1.all
      (fun e => !e.isReady) = true := by
  exact ⟨by decide, by decide, by decide⟩

/-- C2 (amended).  A capture request whose handler returns `Ok` and whose plane
size queries and rewinds all succeed emits exactly one header, then one plane
event per plane, then exactly one ready event carrying
`presentation_time − start_time` split into seconds-high, seconds-low and
nanoseconds, with no cancellation. -/
theorem capture_ok_success_sequence (env : SeekEnv) (cap : Capture) (startTime : Nat)
    (h : cap.dmabuf.planes.all (fun p => (env.sizeOf p.fd).isSome && env.rewindOk p.fd) = true) :
    (requestCaptureOutput env (.ok cap) startTime).1 =
      headerOf cap :: objectsFrom env 0 cap.dmabuf.planes ++ [readyOf cap startTime] ∧
    (objectsFrom env 0 cap.dmabuf.planes).length = cap.dmabuf.planes.length ∧
    (objectsFrom env 0 cap.dmabuf.planes).all Event.isObject = true ∧
    noCancel (requestCaptureOutput env (.ok cap) startTime).1 = true ∧
    readyOf cap startTime =
      Event.ready ((((cap.presentationTime - startTime) / 1000000000) >>> 32) % 2 ^ 32)
        (((cap.presentationTime - startTime) / 1000000000) % 2 ^ 32)
        ((cap.presentationTime - startTime) % 1000000000) := by
  have hok := emitPlanes_success env cap.dmabuf.planes 0 h
  have hevs : (requestCaptureOutput env (.ok cap) startTime).1 =
      headerOf cap :: objectsFrom env 0 cap.dmabuf.planes ++ [readyOf cap startTime] := by
    simp [requestCaptureOutput, hok]
  refine ⟨hevs, objectsFrom_length env _ 0, objectsFrom_all_isObject env _ 0, ?_, rfl⟩
  rw [hevs]
  show noCancel ((headerOf cap :: objectsFrom env 0 cap.dmabuf.planes)
    ++ [readyOf cap startTime]) = true
  unfold noCancel
  rw [List.all_append, List.all_cons, Bool.and_eq_true, Bool.and_eq_true]
  exact ⟨⟨by simp [headerOf, Event.isCancel], objectsFrom_all_not_cancel env _ 0⟩,
    by simp [readyOf, Event.isCancel]⟩

/-- C2 (amended): witness at a concrete input where all plane operations succeed. -/
theorem capture_ok_success_sequence_witness :
    (requestCaptureOutput seekOkEnv (.ok capOnePlane) 0).1 =
      headerOf capOnePlane :: objectsFrom seekOkEnv 0 capOnePlane.dmabuf.planes
        ++ [readyOf capOnePlane 0] :=
  (capture_ok_success_sequence seekOkEnv capOnePlane 0 (by decide)).1

/-- C3 as stated: every emitted plane event's fd would be a fresh OS handle,
distinct from every plane fd of the descriptor, and no descriptor fd is ever
closed during the request. -/
def planeFdsAreDuplicates (env : SeekEnv) (result : Except CaptureError Capture)
    (startTime : Nat) : Prop :=
  ∀ i f sz off str pi,
    Event.object i f sz off str pi ∈ (requestCaptureOutput env result startTime).1 →
    f ∉ (planesOf result).map Plane.fd ∧ (requestCaptureOutput env result startTime).2 = []

/-- C3.  COUNTEREXAMPLE: on the success path the plane event carries the
descriptor's own plane fd (5), not a fresh handle: the code wraps the original fd
with `File::from_raw_fd`, seeks it, and releases the very same fd with
`into_raw_fd` — no duplication happens. -/
theorem plane_event_fd_is_not_a_duplicate :
    ¬ planeFdsAreDuplicates seekOkEnv (.ok capOnePlane) 0 := by
  intro h
  have h5 := h 0 5 (4096 % 2 ^ 32) 0 7680 0 (by decide)
  exact h5.1 (by decide)

/-- C3 (amended).  Every emitted plane event carries the descriptor's own plane
fd (the same OS handle — the code does not duplicate it), with its byte size
obtained by seeking that fd to its end (`% 2^32` for the `as u32` cast) after
which the rewind succeeded; a descriptor fd is closed during the request only
when its size query or rewind failed (in which case no event is emitted for it). -/
theorem plane_event_fd_provenance (env : SeekEnv) (result : Except CaptureError Capture)
    (startTime : Nat) :
    (∀ i f sz off str pi,
        Event.object i f sz off str pi ∈ (requestCaptureOutput env result startTime).1 →
        ∃ p, (planesOf result).get? i = some p ∧ p.fd = f ∧ off = p.offset ∧
          str = p.stride ∧ pi = i ∧
          ∃ s0, env.sizeOf f = some s0 ∧ sz = s0 % 2 ^ 32 ∧ env.rewindOk f = true) ∧
    (∀ f ∈ (requestCaptureOutput env result startTime).2,
        ∃ p ∈ planesOf result, p.fd = f ∧
          (env.sizeOf f = none ∨ env.rewindOk f = false)) := by
  cases result with
  | error e =>
    constructor
    · intro i f sz off str pi h
      simp [requestCaptureOutput] at h
    · intro f h
      simp [requestCaptureOutput] at h
  | ok cap =>
    have hmem : ∀ ev, ev ∈ (requestCaptureOutput env (.ok cap) startTime).1 →
        ev.isObject = true → ev ∈ (emitPlanes env 0 cap.dmabuf.planes).1 := by
      intro ev hev hobj
      by_cases h22 : (emitPlanes env 0 cap.dmabuf.planes).2.2 = true
      · have hevs : (requestCaptureOutput env (.ok cap) startTime).1 =
            headerOf cap :: ((emitPlanes env 0 cap.dmabuf.planes).1
              ++ [readyOf cap startTime]) := by
          simp [requestCaptureOutput, h22]
        rw [hevs] at hev
        rcases List.mem_cons.mp hev with hev | hev
        · rw [hev] at hobj; simp [headerOf, Event.isObject] at hobj
        · rcases List.mem_append.mp hev with hev | hev
          · exact hev
          · rw [List.mem_singleton.mp hev] at hobj
            simp [readyOf, Event.isObject] at hobj
      · rw [Bool.not_eq_true] at h22
        have hevs : (requestCaptureOutput env (.ok cap) startTime).1 =
            headerOf cap :: (emitPlanes env 0 cap.dmabuf.planes).1 := by
          simp [requestCaptureOutput, h22]
        rw [hevs] at hev
        rcases List.mem_cons.mp hev with hev | hev
        · rw [hev] at hobj; simp [headerOf, Event.isObject] at hobj
        · exact hev
    have hclosed : (requestCaptureOutput env (.ok cap) startTime).2 =
        (emitPlanes env 0 cap.dmabuf.planes).2.1 := by
      by_cases h22 : (emitPlanes env 0 cap.dmabuf.planes).2.2 = true
      · simp [requestCaptureOutput, h22]
      · rw [Bool.not_eq_true] at h22
        simp [requestCaptureOutput, h22]
    constructor
    · intro i f sz off str pi h
      have h0 := hmem _ h (by rfl)
      obtain ⟨k, p, hget, hik, hrest⟩ := emitPlanes_object_mem env cap.dmabuf.planes 0 i f
        sz off str pi h0
      have hk : k = i := by omega
      exact ⟨p, by rw [← hk]; exact hget, hrest⟩
    · intro f h
      rw [hclosed] at h
      exact emitPlanes_closed_mem env cap.dmabuf.planes 0 f h

/-- C3 (amended): witness — the concrete success run's plane event is traced back
to the descriptor plane with the same fd. -/
theorem plane_event_fd_provenance_witness :
    ∃ p, (planesOf (.ok capOnePlane)).get? 0 = some p ∧ p.fd = 5 ∧ (0 : Nat) = p.offset ∧
      (7680 : Nat) = p.stride ∧ (0 : Nat) = 0 ∧
      ∃ s0, seekOkEnv.sizeOf 5 = some s0 ∧ 4096 % 2 ^ 32 = s0 % 2 ^ 32 ∧
        seekOkEnv.rewindOk 5 = true :=
  (plane_event_fd_provenance seekOkEnv (.ok capOnePlane) 0).1 0 5 (4096 % 2 ^ 32) 0 7680 0
    (by decide)

/-! ## Consumer buffer pool: `set_config`
(src/gst-plugin-wayland-display/src/buffer_pool/imp.rs lines 159-270) -/

/-- Opaque handle for a `gst::Caps` value. -/
abbrev Caps := Nat

/-- Opaque handle for a `gst::Allocator` object. -/
abbrev AllocatorHandle := Nat

/-- `gst::AllocationParams` (the `prefix` field is called `memPrefix` here). -/
structure AllocationParams where
  flags : Nat
  align : Nat
  memPrefix : Nat
  padding : Nat
deriving DecidableEq, Repr

/-- `gst_video::VideoAlignment`: paddings plus per-plane stride alignment masks
(`stride_align: [u32; GST_VIDEO_MAX_PLANES]`, modelled as a list). -/
structure VideoAlignment where
  padTop : Nat
  padBottom : Nat
  padLeft : Nat
  padRight : Nat
  strideAlign : List Nat
deriving DecidableEq, Repr

/-- The fields of `gst_video::VideoInfo` that `set_config`/`alloc_buffer` read. -/
structure GstVideoInfo where
  format : Nat
  width : Nat
  height : Nat
  nPlanes : Nat
  offsets : List Nat
  strides : List Nat
  size : Nat
deriving DecidableEq, Repr

/-- The parts of a `gst::BufferPoolConfig` that `set_config` reads and writes:
`params()`, `allocator()`, the two pool options, and the video alignment. -/
structure PoolConfig where
  params : Option (Option Caps × Nat × Nat × Nat)
  allocator : Option (Option AllocatorHandle × AllocationParams)
  hasVideoMeta : Bool
  hasVideoAlignment : Bool
  videoAlignment : Option VideoAlignment
deriving DecidableEq, Repr

/-- The pool's stored `State` (buffer_pool/imp.rs lines 28-34). -/
structure PoolState where
  videoInfo : Option GstVideoInfo
  allocator : Option AllocatorHandle
  allocationParams : Option (Option AllocationParams)
  addVideoMeta : Bool
deriving DecidableEq, Repr

/-- Injected GStreamer library behaviour: `VideoInfo::from_caps`,
`VideoInfo::align` (fallible; returns the aligned info — `gst_video_info_align`
re-derives offsets/strides and may grow paddings, it does not change the
requested stride alignment), and `parent_set_config`. -/
structure GstEnv where
  fromCaps : Caps → Option GstVideoInfo
  alignInfo : GstVideoInfo → VideoAlignment → Option GstVideoInfo
  parentSetConfig : PoolConfig → Bool

/-- `GST_VIDEO_MAX_PLANES`. -/
def maxPlanes : Nat := 4

/-- The `max_align` accumulation loop (buffer_pool/imp.rs lines 218-224):
starting from the allocation params' alignment, bitwise-OR in every plane's
requested stride alignment. -/
def maxAlignOf (align : Nat) (strideAlign : List Nat) (nPlanes : Nat) : Nat :=
  (List.range nPlanes).foldl (fun acc plane => acc ||| strideAlign.getD plane 0) align

/-- The new stride-align array (buffer_pool/imp.rs lines 226-230): `[0; 4]` with
entries `0..n_planes` set to `max_align as u32` (line 229 truncates the `usize`
accumulator to the `u32` array element). -/
def raisedStrideAlign (maxAlign : Nat) (nPlanes : Nat) : List Nat :=
  (List.range maxPlanes).map fun plane => if plane < nPlanes then maxAlign % 2 ^ 32 else 0

/-- A video alignment whose per-plane stride alignments are replaced by the
raised array (`VideoAlignment::new` at buffer_pool/imp.rs lines 232-238: same
paddings, new stride array). -/
def alignedVA (va : VideoAlignment) (maxAlign nPlanes : Nat) : VideoAlignment :=
  { va with strideAlign := raisedStrideAlign maxAlign nPlanes }

/-- The tail of `set_config` shared by all successful paths
(buffer_pool/imp.rs lines 261-269): clamp size up to the video size, store the
video info, write back the params, store allocator and allocation params, and
finish with `parent_set_config`. -/
def finishSetConfig (env : GstEnv) (config : PoolConfig) (st : PoolState)
    (videoInfo : GstVideoInfo) (allocator : AllocatorHandle)
    (allocationParams : Option AllocationParams) (caps : Caps)
    (size minBuffers maxBuffers : Nat) : Bool × PoolConfig × PoolState :=
  let size := max size (videoInfo.size % 2 ^ 32)
  let st := { st with videoInfo := some videoInfo }
  let config := { config with params := some (some caps, size, minBuffers, maxBuffers) }
  let st := { st with allocator := some allocator,
                      allocationParams := some allocationParams }
  (env.parentSetConfig config, config, st)

/-- `BufferPoolImpl::set_config` (buffer_pool/imp.rs lines 159-270).  Returns the
`bool` result together with the final config and stored pool state (the Rust
mutates both in place). -/
def set_config (env : GstEnv) (config : PoolConfig) (st : PoolState) :
    Bool × PoolConfig × PoolState :=
  match config.params with
  | none => (false, config, st)
  | some (capsOpt, size, minBuffers, maxBuffers) =>
    match capsOpt with
    | none => (false, config, st)
    | some caps =>
      match env.fromCaps caps with
      | none => (false, config, st)
      | some videoInfo =>
        match config.allocator with
        | none => (false, config, st)
        | some (allocatorOpt, aparams) =>
          match allocatorOpt with
          | none => (false, config, st)
          | some allocator =>
            let st := { st with addVideoMeta := config.hasVideoMeta }
            if config.hasVideoAlignment && config.hasVideoMeta then
              match config.videoAlignment with
              | some videoAlign =>
                let align := aparams.align
                let maxAlign := maxAlignOf align videoAlign.strideAlign videoInfo.nPlanes
                let videoAlign2 := alignedVA videoAlign maxAlign videoInfo.nPlanes
                match env.alignInfo videoInfo videoAlign2 with
                | none => (false, config, st)
                | some videoInfo2 =>
                  let config := { config with videoAlignment := some videoAlign2 }
                  if align < maxAlign then
                    let aparams2 := { aparams with align := maxAlign }
                    let config := { config with allocator := some (some allocator, aparams2) }
                    finishSetConfig env config st videoInfo2 allocator (some aparams2)
                      caps size minBuffers maxBuffers
                  else
                    finishSetConfig env config st videoInfo2 allocator (some aparams)
                      caps size minBuffers maxBuffers
              | none =>
                finishSetConfig env config st videoInfo allocator (some aparams)
                  caps size minBuffers maxBuffers
            else
              finishSetConfig env config st videoInfo allocator (some aparams)
                caps size minBuffers maxBuffers

/-- The effective allocation alignment a config carries. -/
def effectiveAlign (config : PoolConfig) : Nat :=
  match config.allocator with
  | some (_, aparams) => aparams.align
  | none => 0

/-- `set_config` rejects before touching any state when the params, the caps,
the parsed video info, or the allocator is missing. -/
def earlyReject (env : GstEnv) (config : PoolConfig) : Bool :=
  match config.params with
  | none => true
  | some (none, _, _, _) => true
  | some (some caps, _, _, _) =>
    match env.fromCaps caps with
    | none => true
    | some _ =>
      match config.allocator with
      | none => true
      | some (none, _) => true
      | some (some _, _) => false

theorem nat_le_lor_left (a b : Nat) : a ≤ a ||| b := by
  induction a using Nat.binaryRec generalizing b with
  | z => exact Nat.zero_le _
  | f abit a ih =>
    induction b using Nat.binaryRec with
    | z => simp
    | f bbit b _ =>
      rw [Nat.lor_bit, Nat.bit_val, Nat.bit_val]
      have h1 := ih b
      have h2 : abit.toNat ≤ (abit || bbit).toNat := by cases abit <;> cases bbit <;> simp
      omega

theorem nat_le_lor_right (a b : Nat) : b ≤ a ||| b := by
  rw [Nat.lor_comm]
  exact nat_le_lor_left b a

theorem foldl_lor_init_le {α : Type} (f : α → Nat) (l : List α) (i : Nat) :
    i ≤ l.foldl (fun acc x => acc ||| f x) i := by
  induction l generalizing i with
  | nil => exact Nat.le_refl i
  | cons x l ih => exact Nat.le_trans (nat_le_lor_left i (f x)) (ih (i ||| f x))

theorem foldl_lor_mem_le {α : Type} (f : α → Nat) (x : α) :
    ∀ (l : List α), x ∈ l → ∀ i, f x ≤ l.foldl (fun acc y => acc ||| f y) i := by
  intro l
  induction l with
  | nil => intro hx; cases hx
  | cons y l ih =>
    intro hx i
    rcases List.mem_cons.mp hx with h | h
    · subst h
      exact Nat.le_trans (nat_le_lor_right i (f x)) (foldl_lor_init_le f l (i ||| f x))
    · exact ih h (i ||| f y)

theorem raisedStrideAlign_getD (m n p : Nat) (hp : p < maxPlanes) (hn : p < n) :
    (raisedStrideAlign m n).getD p 0 = m % 2 ^ 32 := by
  unfold raisedStrideAlign
  rw [List.getD_eq_getElem?_getD, List.getElem?_map, List.getElem?_range hp]
  simp [hn]

/-- Concrete 640x480 single-plane video info. -/
def vi7 : GstVideoInfo := ⟨1, 640, 480, 1, [0, 0, 0, 0], [640, 0, 0, 0], 307200⟩

/-- Concrete allocation params: alignment 127 (as set by `decide_allocation`). -/
def ap7 : AllocationParams := ⟨0, 127, 0, 0⟩

/-- Concrete video alignment request: stride alignment 31 on plane 0. -/
def va7 : VideoAlignment := ⟨0, 0, 0, 0, [31, 0, 0, 0]⟩

/-- A fully-populated pool config with both video-meta and video-alignment
options, as `decide_allocation` builds it. -/
def config7 : PoolConfig :=
  { params := some (some 0, 307200, 2, 4), allocator := some (some 0, ap7),
    hasVideoMeta := true, hasVideoAlignment := true, videoAlignment := some va7 }

/-- The empty prior pool state. -/
def st7 : PoolState := ⟨none, none, none, false⟩

/-- Environment in which `VideoInfo::align` fails. -/
def envAlignFail : GstEnv := ⟨fun _ => some vi7, fun _ _ => none, fun _ => true⟩

/-- Environment in which every injected GStreamer call succeeds. -/
def envAlignOk : GstEnv := ⟨fun _ => some vi7, fun vi _ => some vi, fun _ => true⟩

/-- C7.  COUNTEREXAMPLE: when `VideoInfo::align` fails, `set_config` returns
`false` but has already overwritten the stored `add_video_meta` flag
(buffer_pool/imp.rs line 206 runs before the failure return at line 241), so the
pool state is NOT left in its prior configuration. -/
theorem set_config_failure_mutates_state :
    (set_config envAlignFail config7 st7).1 = false ∧
    (set_config envAlignFail config7 st7).2.2 ≠ st7 := by
  exact ⟨by decide, by decide⟩

/-- C7 (amended).  A `set_config` call that fails for a missing-params,
missing-caps, invalid-caps or missing-allocator reason leaves both the config
and the stored pool state unchanged; a call that fails at the video-alignment
step leaves the stored video info, allocator and allocation params unchanged
(and the config unchanged) but has already overwritten the stored
`add_video_meta` flag from the new config's option. -/
theorem set_config_failure_state (env : GstEnv) (config : PoolConfig) (st : PoolState) :
    (earlyReject env config = true → set_config env config st = (false, config, st)) ∧
    (∀ caps size minBuffers maxBuffers vi a ap va,
       config.params = some (some caps, size, minBuffers, maxBuffers) →
       env.fromCaps caps = some vi →
       config.allocator = some (some a, ap) →
       config.hasVideoMeta = true →
       config.hasVideoAlignment = true →
       config.videoAlignment = some va →
       env.alignInfo vi (alignedVA va (maxAlignOf ap.align va.strideAlign vi.nPlanes)
         vi.nPlanes) = none →
       set_config env config st = (false, config, { st with addVideoMeta := true })) := by
  constructor
  · intro h
    rcases hp : config.params with _ | ⟨capsOpt, size, minB, maxB⟩
    · simp [set_config, hp]
    · rcases capsOpt with _ | caps
      · simp [set_config, hp]
      · rcases hf : env.fromCaps caps with _ | vi
        · simp [set_config, hp, hf]
        · rcases ha : config.allocator with _ | ⟨aOpt, ap⟩
          · simp [set_config, hp, hf, ha]
          · rcases aOpt with _ | a
            · simp [set_config, hp, hf, ha]
            · simp [earlyReject, hp, hf, ha] at h
  · intro caps size minBuffers maxBuffers vi a ap va hp hf ha hm hal hva hfail
    simp [set_config, hp, hf, ha, hm, hal, hva, hfail]

/-- C7 (amended): witness — a call with no params fails and leaves config and
state untouched. -/
theorem set_config_failure_state_witness :
    set_config envAlignFail { config7 with params := none } st7 =
      (false, { config7 with params := none }, st7) :=
  (set_config_failure_state envAlignFail { config7 with params := none } st7).1 (by decide)

/-- Concrete allocation params whose (64-bit `usize`) alignment is `2^32`, as a
prior negotiation could have written back. -/
def apBig : AllocationParams := ⟨0, 4294967296, 0, 0⟩

/-- `config7` with the oversized allocation alignment. -/
def configBig : PoolConfig := { config7 with allocator := some (some 0, apBig) }

/-- C8.  COUNTEREXAMPLE: with a requested allocation alignment of `2^32` (a
64-bit `usize`, e.g. carried over from a prior negotiation) and a stride
alignment request of 31 on the single plane, `max_align = 2^32 ||| 31`, but the
per-plane stride alignment stored by the successful call is
`max_align as u32 = 31` (buffer_pool/imp.rs line 229) — far below the requested
allocation alignment, refuting "raised to at least max(requested allocation
alignment, every plane's requested stride alignment)" and "never decreases the
effective stride alignment below the prior maximum". -/
theorem set_config_stride_align_truncated :
    (set_config envAlignOk configBig st7).1 = true ∧
    ((set_config envAlignOk configBig st7).2.1.videoAlignment.map
      (fun va => va.strideAlign.getD 0 0)) = some 31 ∧
    31 < apBig.align := by
  exact ⟨by decide, by decide, by decide⟩

/-- C8 (amended).  The accumulated `max_align` (the bitwise OR of the requested
allocation alignment and every plane's requested stride alignment) dominates
each of its inputs; on the successful aligned path the written-back allocation
params carry exactly the untruncated `max_align`, while every plane's stored
stride alignment is `max_align as u32` — so whenever `max_align < 2^32` (in
particular in every renegotiation whose carried-over alignment and requested
stride alignments are 32-bit values) each plane's stride alignment equals
`max_align` and is at least `max(requested allocation alignment, every plane's
requested stride alignment)`, never below the prior maximum carried in the
allocation params. -/
theorem set_config_alignment_monotone :
    (∀ align strideAlign nPlanes, align ≤ maxAlignOf align strideAlign nPlanes) ∧
    (∀ align strideAlign nPlanes p, p < nPlanes →
       strideAlign.getD p 0 ≤ maxAlignOf align strideAlign nPlanes) ∧
    (∀ env config st caps size minBuffers maxBuffers vi a ap va vi2,
       config.params = some (some caps, size, minBuffers, maxBuffers) →
       env.fromCaps caps = some vi →
       config.allocator = some (some a, ap) →
       config.hasVideoMeta = true →
       config.hasVideoAlignment = true →
       config.videoAlignment = some va →
       env.alignInfo vi (alignedVA va (maxAlignOf ap.align va.strideAlign vi.nPlanes)
         vi.nPlanes) = some vi2 →
       (set_config env config st).2.1.allocator =
           some (some a, { ap with align := maxAlignOf ap.align va.strideAlign vi.nPlanes }) ∧
       (set_config env config st).2.1.videoAlignment =
           some (alignedVA va (maxAlignOf ap.align va.strideAlign vi.nPlanes) vi.nPlanes) ∧
       (∀ p, p < vi.nPlanes → p < maxPlanes →
          (raisedStrideAlign (maxAlignOf ap.align va.strideAlign vi.nPlanes)
            vi.nPlanes).getD p 0 = maxAlignOf ap.align va.strideAlign vi.nPlanes % 2 ^ 32) ∧
       (maxAlignOf ap.align va.strideAlign vi.nPlanes < 2 ^ 32 →
        ∀ p, p < vi.nPlanes → p < maxPlanes →
          (raisedStrideAlign (maxAlignOf ap.align va.strideAlign vi.nPlanes)
            vi.nPlanes).getD p 0 = maxAlignOf ap.align va.strideAlign vi.nPlanes)) := by
  refine ⟨?_, ?_, ?_⟩
  · intro align strideAlign nPlanes
    exact foldl_lor_init_le _ _ _
  · intro align strideAlign nPlanes p hp
    exact foldl_lor_mem_le (fun q => strideAlign.getD q 0) p (List.range nPlanes)
      (List.mem_range.mpr hp) align
  · intro env config st caps size minBuffers maxBuffers vi a ap va vi2
      hp hf ha hm hal hva hsucc
    have hstride : ∀ p, p < vi.nPlanes → p < maxPlanes →
        (raisedStrideAlign (maxAlignOf ap.align va.strideAlign vi.nPlanes)
          vi.nPlanes).getD p 0 = maxAlignOf ap.align va.strideAlign vi.nPlanes % 2 ^ 32 :=
      fun p hpn hpm => raisedStrideAlign_getD _ _ _ hpm hpn
    have hfull : maxAlignOf ap.align va.strideAlign vi.nPlanes < 2 ^ 32 →
        ∀ p, p < vi.nPlanes → p < maxPlanes →
          (raisedStrideAlign (maxAlignOf ap.align va.strideAlign vi.nPlanes)
            vi.nPlanes).getD p 0 = maxAlignOf ap.align va.strideAlign vi.nPlanes := by
      intro h32 p hpn hpm
      rw [hstride p hpn hpm]
      exact Nat.mod_eq_of_lt h32
    by_cases hlt : ap.align < maxAlignOf ap.align va.strideAlign vi.nPlanes
    · refine ⟨?_, ?_, hstride, hfull⟩ <;>
        simp [set_config, hp, hf, ha, hm, hal, hva, hsucc, hlt, finishSetConfig]
    · have heq : maxAlignOf ap.align va.strideAlign vi.nPlanes = ap.align :=
        Nat.le_antisymm (Nat.not_lt.mp hlt) (foldl_lor_init_le _ _ _)
      rw [heq] at hsucc
      refine ⟨?_, ?_, hstride, hfull⟩ <;>
        simp [set_config, hp, hf, ha, hm, hal, hva, hsucc, hlt, heq, finishSetConfig]

/-- C8 (amended): witness — with allocation alignment 127 and a plane stride
alignment request of 31 on one plane, the resulting allocator params carry
`127 ||| 31 = 127`. -/
theorem set_config_alignment_monotone_witness :
    (set_config envAlignOk config7 st7).2.1.allocator =
      some (some 0, { ap7 with align := maxAlignOf ap7.align va7.strideAlign vi7.nPlanes }) :=
  ((set_config_alignment_monotone.2.2 envAlignOk config7 st7 0 307200 2 4 vi7 0 ap7 va7 vi7
    rfl rfl rfl rfl rfl rfl rfl).1)

/-! ## Consumer buffer pool: `alloc_buffer`
(src/gst-plugin-wayland-display/src/buffer_pool/imp.rs lines 65-157) -/

/-- A `gst::Memory` as `alloc_buffer` sees it: whether it downcasts to
`DmaBufMemory`, its fd (`mem.fd()`, borrowed — the memory keeps ownership),
its offset (`mem.offset()`) and its size. -/
structure GstMemory where
  isDmaBuf : Bool
  fd : Nat
  memOffset : Nat
  size : Nat
deriving DecidableEq, Repr

/-- A `gst::Buffer`: its memories, the optional attached `SmithayBufferMeta`
descriptor, whether a `VideoMeta` was added, and the `TAG_MEMORY` flag. -/
structure GstBuffer where
  memories : List GstMemory
  meta : Option DmabufRec
  videoMeta : Bool
  tagMemory : Bool
deriving DecidableEq, Repr

/-- The distinguishable failure modes of `alloc_buffer`: a returned
`gst::FlowError::Error`, and the two `expect`/`unwrap` panics inside the
plane-walking loop. -/
inductive AllocFailure
  | flowError
  | panicFindMemory
  | panicDowncast
deriving DecidableEq, Repr

/-- `gst_buffer_find_memory(offset, 1)`: scan the memories in order accumulating
sizes; return the index of the memory containing byte `offset` and the skip into
it. -/
def findMemoryAux (offset idx acc : Nat) : List GstMemory → Option (Nat × Nat)
  | [] => none
  | m :: rest =>
    if offset < acc + m.size then some (idx, offset - acc)
    else findMemoryAux offset (idx + 1) (acc + m.size) rest

def find_memory (b : GstBuffer) (offset : Nat) : Option (Nat × Nat) :=
  findMemoryAux offset 0 0 b.memories

/-- One iteration of the plane loop (buffer_pool/imp.rs lines 105-127): look up
the memory covering the plane's offset, downcast it to `DmaBufMemory`, and add a
plane to the dmabuf builder with `OwnedFd::from_raw_fd(mem.fd())` — the memory's
own fd, claimed as a NEW owner without duplication — at offset
`(mem.offset() + skip) as u32` and the plane's `stride as u32`.  `add_plane`
succeeds while the plane index equals the number of planes added so far and
fewer than 4 planes exist. -/
def addPlaneStep (b : GstBuffer) (vi : GstVideoInfo) (acc : List Plane) (plane : Nat) :
    Except AllocFailure (List Plane) :=
  let offset := vi.offsets.getD plane 0
  let stride := vi.strides.getD plane 0
  match find_memory b offset with
  | none => .error .panicFindMemory
  | some (memIdx, skip) =>
    match b.memories.get? memIdx with
    | none => .error .panicFindMemory
    | some mem =>
      if mem.isDmaBuf then
        if acc.length == plane && acc.length < 4 then
          .ok (acc ++ [⟨mem.fd, (mem.memOffset + skip) % 2 ^ 32, stride % 2 ^ 32⟩])
        else .error .flowError
      else .error .panicDowncast

/-- The plane loop `for plane in 0..video_info.n_planes()`. -/
def buildPlanes (b : GstBuffer) (vi : GstVideoInfo) : List Nat → List Plane →
    Except AllocFailure (List Plane)
  | [], acc => .ok acc
  | plane :: rest, acc =>
    match addPlaneStep b vi acc plane with
    | .error e => .error e
    | .ok acc2 => buildPlanes b vi rest acc2

/-- Injected environment for `alloc_buffer`: the GBM allocator's `alloc`
(returning a memory or failing), `parent_alloc_buffer`, whether
`VideoMeta::add_full` succeeds, and `gst_video_format_to_drm_fourcc` applied to
the negotiated format. -/
structure AllocEnv where
  gbmAlloc : Nat → Option GstMemory
  parentAllocBuffer : Except AllocFailure GstBuffer
  addVideoMetaOk : Bool
  formatFourcc : Option Nat

/-- The pool state fields `alloc_buffer` reads: the negotiated video info,
whether the stored allocator downcasts to `GbmMemoryAllocator`, and the
`add_video_meta` flag. -/
structure AllocState where
  videoInfo : GstVideoInfo
  allocatorIsGbm : Bool
  addVideoMeta : Bool
deriving DecidableEq, Repr

/-- `BufferPoolImpl::alloc_buffer` (buffer_pool/imp.rs lines 65-157).  For the
GBM allocator, allocate one memory of `video_info.size()` and build a fresh
buffer around it; otherwise delegate to `parent_alloc_buffer`.  If the first
memory is DMA-BUF backed, build a linear-modifier dmabuf descriptor by walking
the planes and attach it as the buffer's meta (adding a `VideoMeta` when
configured, then clearing `TAG_MEMORY`); if it is not, return
`FlowError::Error`. -/
def alloc_buffer (env : AllocEnv) (st : AllocState) : Except AllocFailure GstBuffer :=
  let vi := st.videoInfo
  let bufferE : Except AllocFailure GstBuffer :=
    if st.allocatorIsGbm then
      match env.gbmAlloc vi.size with
      | some mem => .ok { memories := [mem], meta := none, videoMeta := false, tagMemory := true }
      | none => .error .flowError
    else env.parentAllocBuffer
  match bufferE with
  | .error e => .error e
  | .ok buffer =>
    match buffer.memories.get? 0 with
    | none => .error .panicFindMemory
    | some mem0 =>
      if mem0.isDmaBuf then
        match env.formatFourcc with
        | none => .error .flowError
        | some fourcc =>
          match buildPlanes buffer vi (List.range vi.nPlanes) [] with
          | .error e => .error e
          | .ok planes =>
            if planes.isEmpty then .error .flowError
            else
              let dmabuf : DmabufRec :=
                { width := vi.width, height := vi.height, yInverted := false,
                  formatCode := fourcc, modifier := 0, planes := planes }
              let buffer := { buffer with meta := some dmabuf }
              if st.addVideoMeta then
                if env.addVideoMetaOk then
                  .ok { buffer with videoMeta := true, tagMemory := false }
                else .error .flowError
              else .ok { buffer with tagMemory := false }
      else .error .flowError

/-- How many owning handles of fd `f` a buffer holds: each `GstMemory` owns its
fd, and each plane of the attached descriptor holds an `OwnedFd` for its fd.
Destroying the buffer closes `f` once per owner: the memory's free closes it,
and `custom_meta_free` (buffer_pool/meta/imp.rs lines 53-61) drops the stored
`Dmabuf`, closing each plane's `OwnedFd`. -/
def fdOwners (b : GstBuffer) (f : Nat) : Nat :=
  (b.memories.filter (fun m => m.fd == f)).length +
    (match b.meta with
     | some d => (d.planes.filter (fun p => p.fd == f)).length
     | none => 0)

/-- Concrete inputs: a GBM allocation handing out a 4 MiB dmabuf memory on fd 7
for a 1920x1080 single-plane format. -/
def gbmEnv : AllocEnv :=
  ⟨fun _ => some ⟨true, 7, 0, 4194304⟩, .error .flowError, true, some 875713112⟩

def gbmState : AllocState :=
  ⟨⟨1, 1920, 1080, 1, [0, 0, 0, 0], [7680, 0, 0, 0], 4147200⟩, true, false⟩

/-- The descriptor that the concrete GBM run builds: one plane on the memory's
own fd 7. -/
def gbmDescriptor : DmabufRec := ⟨1920, 1080, false, 875713112, 0, [⟨7, 0, 7680⟩]⟩

/-- The buffer the concrete GBM run returns. -/
def gbmExpectedBuffer : GstBuffer := ⟨[⟨true, 7, 0, 4194304⟩], some gbmDescriptor, false, false⟩

/-- C4.  The descriptor built by `alloc_buffer` wraps the memory's own fd in a
new `OwnedFd` (`OwnedFd::from_raw_fd(mem.fd())`, buffer_pool/imp.rs line 118)
without duplicating it, so the plane fd ends up with TWO owners — the
`GstMemory` and the descriptor — and destroying the buffer closes it twice
(once by the memory's free, once by `custom_meta_free` dropping the `Dmabuf`),
not exactly once as the spec requires. -/
theorem alloc_buffer_fd_owned_twice :
    alloc_buffer gbmEnv gbmState = .ok gbmExpectedBuffer ∧
    fdOwners gbmExpectedBuffer 7 = 2 ∧
    ∀ b, alloc_buffer gbmEnv gbmState = .ok b → fdOwners b 7 ≠ 1 := by
  refine ⟨rfl, by decide, ?_⟩
  intro b hb
  have h : alloc_buffer gbmEnv gbmState = .ok gbmExpectedBuffer := rfl
  have hb2 : b = gbmExpectedBuffer := Except.ok.inj (hb.symm.trans h)
  rw [hb2]
  decide

/-- A parent-allocated buffer whose memory is plain (non-DMA-BUF) system memory. -/
def plainBuffer : GstBuffer := ⟨[⟨false, 9, 0, 4194304⟩], none, false, true⟩

def plainParentEnv : AllocEnv := ⟨fun _ => none, .ok plainBuffer, true, some 875713112⟩

def plainParentState : AllocState :=
  ⟨⟨1, 1920, 1080, 1, [0, 0, 0, 0], [7680, 0, 0, 0], 4147200⟩, false, false⟩

/-- C6.  COUNTEREXAMPLE: with a non-GBM allocator whose parent allocation
produces non-DMA-BUF memory, `alloc_buffer` returns `FlowError::Error`
(buffer_pool/imp.rs line 156) instead of returning a buffer for a copy path. -/
theorem alloc_buffer_no_dmabuf_fails :
    alloc_buffer plainParentEnv plainParentState = .error .flowError ∧
    ∀ b, alloc_buffer plainParentEnv plainParentState ≠ .ok b := by
  refine ⟨rfl, ?_⟩
  intro b hb
  have h : alloc_buffer plainParentEnv plainParentState = .error .flowError := rfl
  exact Except.noConfusion (h.symm.trans hb)

/-- C6 (amended).  When the allocation result's first memory is not DMA-BUF
backed, `alloc_buffer` fails the acquisition with `FlowError::Error` — there is
no fallback buffer; the generic parent allocation path is used to obtain the
memory only when the configured allocator is not the GBM allocator. -/
theorem alloc_buffer_requires_dmabuf (env : AllocEnv) (st : AllocState)
    (buffer : GstBuffer) (mem0 : GstMemory)
    (hgbm : st.allocatorIsGbm = false)
    (hparent : env.parentAllocBuffer = .ok buffer)
    (hmem : buffer.memories.get? 0 = some mem0)
    (hnotdma : mem0.isDmaBuf = false) :
    alloc_buffer env st = .error .flowError := by
  rw [List.get?_eq_getElem?] at hmem
  simp [alloc_buffer, hgbm, hparent, hmem, hnotdma]

/-- C6 (amended): witness at the concrete non-DMA parent allocation. -/
theorem alloc_buffer_requires_dmabuf_witness :
    alloc_buffer plainParentEnv plainParentState = .error .flowError :=
  alloc_buffer_requires_dmabuf plainParentEnv plainParentState plainBuffer
    ⟨false, 9, 0, 4194304⟩ rfl rfl rfl rfl

/-! ## Allocator selection in `decide_allocation`
(src/gst-plugin-wayland-display/src/waylandsrc/imp.rs lines 300-370) and
`DmaHeapMemoryAllocator::is_available`
(src/gst-plugin-wayland-display/src/allocators/dma_heap/imp.rs lines 13-19) -/

/-- The three allocator backends of the plugin.  The GBM variant records the
configured render-node (an opaque handle; `None` makes the allocator itself fall
back to `/dev/dri/renderD128`). -/
inductive SelectedAllocator
  | gbm (renderNode : Option Nat)
  | dmaHeap
  | memfd
deriving DecidableEq, Repr

/-- The allocator chosen by `decide_allocation` (waylandsrc/imp.rs lines
311-327): the block unconditionally constructs a `GbmMemoryAllocator` from the
settings' render node — no other backend is consulted. -/
def decideAllocationSelect (renderNode : Option Nat) : SelectedAllocator :=
  SelectedAllocator.gbm renderNode

/-- The fixed `gst::AllocationParams` built there: alignment 127. -/
def decideAllocationParams : AllocationParams := ⟨0, 127, 0, 0⟩

/-- The fixed `gst_video::VideoAlignment` built there: stride alignment 31 on
plane 0. -/
def decideAllocationAlign : VideoAlignment := ⟨0, 0, 0, 0, [31, 0, 0, 0]⟩

/-- The pool config `decide_allocation` installs (both branches of the
allocation-pools check, waylandsrc/imp.rs lines 329-358): allocator plus params,
the video-meta option, and — since the alignment is always `Some` — the
video-alignment option with the fixed alignment. -/
def decideAllocationConfig (allocator : AllocatorHandle) (caps : Caps)
    (size minBuffers maxBuffers : Nat) : PoolConfig :=
  { params := some (some caps, size, minBuffers, maxBuffers),
    allocator := some (some allocator, decideAllocationParams),
    hasVideoMeta := true, hasVideoAlignment := true,
    videoAlignment := some decideAllocationAlign }

/-- `DmaHeapMemoryAllocator::is_available` (dma_heap/imp.rs lines 14-18): try
the CMA heap, then the system heap. -/
def dma_heap_is_available (cmaOk systemOk : Bool) : Bool := cmaOk || systemOk

/-- The allocator selection as the spec words it (for comparison): GPU-device
allocator preferred, the kernel dma-heap allocator when no GPU device path is
configured, sealed anonymous memory only for non-zero-copy paths. -/
def specSelectAllocator (renderNode : Option Nat) (dmaHeapAvailable : Bool)
    (zeroCopy : Bool) : SelectedAllocator :=
  if zeroCopy then
    match renderNode with
    | some n => SelectedAllocator.gbm (some n)
    | none => if dmaHeapAvailable then SelectedAllocator.dmaHeap else SelectedAllocator.memfd
  else SelectedAllocator.memfd

/-- C5.  COUNTEREXAMPLE: with no GPU device path configured (and the dma-heap
available) the spec's selection rule picks the dma-heap allocator, but
`decide_allocation` still selects the GBM allocator — it never consults
availability. -/
theorem decide_allocation_ignores_availability :
    decideAllocationSelect none = SelectedAllocator.gbm none ∧
    specSelectAllocator none true true = SelectedAllocator.dmaHeap ∧
    decideAllocationSelect none ≠ specSelectAllocator none true true := by
  exact ⟨rfl, rfl, by decide⟩

/-- C5 (amended).  For every negotiation, `decide_allocation` always selects the
GBM allocator with the configured render node (never the dma-heap or sealed
memfd allocator), with fixed allocation alignment 127 and a stride-alignment
request of 31 on plane 0, and installs a pool config with both the video-meta
and video-alignment options. -/
theorem decide_allocation_always_gbm (renderNode : Option Nat) :
    decideAllocationSelect renderNode = SelectedAllocator.gbm renderNode ∧
    decideAllocationSelect renderNode ≠ SelectedAllocator.dmaHeap ∧
    decideAllocationSelect renderNode ≠ SelectedAllocator.memfd ∧
    decideAllocationParams.align = 127 ∧
    decideAllocationAlign.strideAlign = [31, 0, 0, 0] ∧
    ∀ allocator caps size minBuffers maxBuffers,
      (decideAllocationConfig allocator caps size minBuffers maxBuffers).hasVideoMeta = true ∧
      (decideAllocationConfig allocator caps size minBuffers maxBuffers).hasVideoAlignment
        = true ∧
      (decideAllocationConfig allocator caps size minBuffers maxBuffers).allocator =
        some (some allocator, decideAllocationParams) :=
  ⟨rfl, fun h => SelectedAllocator.noConfusion h, fun h => SelectedAllocator.noConfusion h,
   rfl, rfl, fun _ _ _ _ _ => ⟨rfl, rfl, rfl⟩⟩

/-! ## Producer frame requests: `PushSrcImpl::create`
(src/gst-plugin-wayland-display/src/waylandsrc/imp.rs lines 426-471) -/

/-- `gst::FlowError` values `create` returns. -/
inductive GstFlowError
  | eos
  | flowError
deriving DecidableEq, Repr

/-- Outcomes of `create`: a flow error, or one of the two panics
(`expect("no smithay buffer meta")`, the `unreachable!` for a missing pool). -/
inductive CreateFailure
  | flow (e : GstFlowError)
  | panicNoMeta
  | panicNoPool
deriving DecidableEq, Repr

/-- `CreateSuccess`: a freshly acquired buffer, or the caller's buffer filled. -/
inductive CreateSuccess
  | newBuffer (b : GstBuffer)
  | filledBuffer
deriving DecidableEq, Repr

/-- Injected environment for `create`: whether the element state is present,
whether `buffer_pool()` returns one, the result of `pool.acquire_buffer`, and
whether the channel send and the ack rendezvous succeed (the send fails when the
compositor thread has exited; the recv fails when the ack sender was dropped
without firing). -/
structure CreateEnv where
  stateIsSome : Bool
  poolPresent : Bool
  acquireBuffer : Except GstFlowError GstBuffer
  sendOk : Bool
  recvOk : Bool

/-- The observable result of one `create` call: the returned value, whether
`pool.acquire_buffer` was invoked, and the descriptor carried by the `Buffer`
command handed to `command_tx.send` (if the run got that far). -/
structure CreateResult where
  result : Except CreateFailure CreateSuccess
  acquiredFromPool : Bool
  sentBuffer : Option DmabufRec

/-- The shared tail of `create` (waylandsrc/imp.rs lines 456-470): send the
`Buffer` command (failure ⇒ `Eos`), block on the ack rendezvous (failure ⇒
`Error`), then report `NewBuffer` or `FilledBuffer`. -/
def createSend (env : CreateEnv) (acquired : Bool) (newBuffer : Option GstBuffer)
    (dmabuf : DmabufRec) : CreateResult :=
  if !env.sendOk then ⟨.error (.flow .eos), acquired, some dmabuf⟩
  else if !env.recvOk then ⟨.error (.flow .flowError), acquired, some dmabuf⟩
  else
    match newBuffer with
    | some nb => ⟨.ok (.newBuffer nb), acquired, some dmabuf⟩
    | none => ⟨.ok .filledBuffer, acquired, some dmabuf⟩

/-- `PushSrcImpl::create` (waylandsrc/imp.rs lines 426-471).  With a caller
buffer, reuse the descriptor attached to its meta (a clone of the `Dmabuf`,
i.e. the same descriptor) and do not touch the pool; without one, acquire a
fresh buffer from the pool and use its meta's descriptor. -/
def create (env : CreateEnv) (buffer : Option GstBuffer) : CreateResult :=
  if !env.stateIsSome then ⟨.error (.flow .eos), false, none⟩
  else if !env.poolPresent then ⟨.error .panicNoPool, false, none⟩
  else
    match buffer with
    | some bufferRef =>
      match bufferRef.meta with
      | none => ⟨.error .panicNoMeta, false, none⟩
      | some dmabuf => createSend env false none dmabuf
    | none =>
      match env.acquireBuffer with
      | .error e => ⟨.error (.flow e), true, none⟩
      | .ok newBuffer =>
        match newBuffer.meta with
        | none => ⟨.error .panicNoMeta, true, none⟩
        | some dmabuf => createSend env true (some newBuffer) dmabuf

/-- `create` reaches the channel-send step: the state and pool are present and
the relevant buffer carries a descriptor meta. -/
def createReachesSend (env : CreateEnv) (buffer : Option GstBuffer) : Bool :=
  env.stateIsSome && env.poolPresent &&
    (match buffer with
     | some b => b.meta.isSome
     | none =>
       match env.acquireBuffer with
       | .ok nb => nb.meta.isSome
       | .error _ => false)

/-- C9.  If the `Buffer` command cannot be sent because the compositor thread
has exited, `create` returns end-of-stream (`Eos`); if the send succeeds but the
ack rendezvous fails (sender dropped without firing), `create` returns the
distinct fatal `Error` for that frame — one attempt, no retry. -/
theorem create_channel_failures (env : CreateEnv) (buffer : Option GstBuffer)
    (h : createReachesSend env buffer = true) :
    (env.sendOk = false →
      (create env buffer).result = .error (.flow .eos)) ∧
    (env.sendOk = true → env.recvOk = false →
      (create env buffer).result = .error (.flow .flowError)) ∧
    GstFlowError.eos ≠ GstFlowError.flowError := by
  simp only [createReachesSend, Bool.and_eq_true] at h
  obtain ⟨⟨hst, hpool⟩, hbuf⟩ := h
  refine ⟨?_, ?_, fun hcon => GstFlowError.noConfusion hcon⟩
  · intro hsend
    cases buffer with
    | some b =>
      cases hmeta : b.meta with
      | none => simp [hmeta] at hbuf
      | some d => simp [create, hst, hpool, hmeta, createSend, hsend]
    | none =>
      cases hacq : env.acquireBuffer with
      | error e => simp [hacq] at hbuf
      | ok nb =>
        cases hmeta : nb.meta with
        | none => simp [hacq, hmeta] at hbuf
        | some d => simp [create, hst, hpool, hacq, hmeta, createSend, hsend]
  · intro hsend hrecv
    cases buffer with
    | some b =>
      cases hmeta : b.meta with
      | none => simp [hmeta] at hbuf
      | some d => simp [create, hst, hpool, hmeta, createSend, hsend, hrecv]
    | none =>
      cases hacq : env.acquireBuffer with
      | error e => simp [hacq] at hbuf
      | ok nb =>
        cases hmeta : nb.meta with
        | none => simp [hacq, hmeta] at hbuf
        | some d => simp [create, hst, hpool, hacq, hmeta, createSend, hsend, hrecv]

/-- Concrete create environments for the channel-failure witness. -/
def deadCompositorEnv : CreateEnv :=
  ⟨true, true, .ok gbmExpectedBuffer, false, false⟩

/-- C9: witness — with the compositor thread gone, the send fails and `create`
returns `Eos`. -/
theorem create_channel_failures_witness :
    (create deadCompositorEnv (some gbmExpectedBuffer)).result =
      .error (.flow .eos) :=
  (create_channel_failures deadCompositorEnv (some gbmExpectedBuffer) (by decide)).1 rfl

/-- C10.  With a caller-supplied buffer carrying a descriptor meta, `create`
acquires nothing from the pool, sends exactly that descriptor as the render
target, and reports the same buffer as filled; with no caller buffer it acquires
a fresh buffer from the pool, sends that buffer's attached descriptor, and
returns it as a new buffer. -/
theorem create_reuses_supplied_buffer (env : CreateEnv)
    (hst : env.stateIsSome = true) (hpool : env.poolPresent = true) :
    (∀ b d, b.meta = some d →
      (create env (some b)).acquiredFromPool = false ∧
      (create env (some b)).sentBuffer = some d ∧
      (env.sendOk = true → env.recvOk = true →
        (create env (some b)).result = .ok .filledBuffer)) ∧
    (∀ nb d, env.acquireBuffer = .ok nb → nb.meta = some d →
      (create env none).acquiredFromPool = true ∧
      (create env none).sentBuffer = some d ∧
      (env.sendOk = true → env.recvOk = true →
        (create env none).result = .ok (.newBuffer nb))) := by
  constructor
  · intro b d hmeta
    refine ⟨?_, ?_, ?_⟩
    · by_cases hsend : env.sendOk = true
      · by_cases hrecv : env.recvOk = true
        · simp [create, hst, hpool, hmeta, createSend, hsend, hrecv]
        · rw [Bool.not_eq_true] at hrecv
          simp [create, hst, hpool, hmeta, createSend, hsend, hrecv]
      · rw [Bool.not_eq_true] at hsend
        simp [create, hst, hpool, hmeta, createSend, hsend]
    · by_cases hsend : env.sendOk = true
      · by_cases hrecv : env.recvOk = true
        · simp [create, hst, hpool, hmeta, createSend, hsend, hrecv]
        · rw [Bool.not_eq_true] at hrecv
          simp [create, hst, hpool, hmeta, createSend, hsend, hrecv]
      · rw [Bool.not_eq_true] at hsend
        simp [create, hst, hpool, hmeta, createSend, hsend]
    · intro hsend hrecv
      simp [create, hst, hpool, hmeta, createSend, hsend, hrecv]
  · intro nb d hacq hmeta
    refine ⟨?_, ?_, ?_⟩
    · by_cases hsend : env.sendOk = true
      · by_cases hrecv : env.recvOk = true
        · simp [create, hst, hpool, hacq, hmeta, createSend, hsend, hrecv]
        · rw [Bool.not_eq_true] at hrecv
          simp [create, hst, hpool, hacq, hmeta, createSend, hsend, hrecv]
      · rw [Bool.not_eq_true] at hsend
        simp [create, hst, hpool, hacq, hmeta, createSend, hsend]
    · by_cases hsend : env.sendOk = true
      · by_cases hrecv : env.recvOk = true
        · simp [create, hst, hpool, hacq, hmeta, createSend, hsend, hrecv]
        · rw [Bool.not_eq_true] at hrecv
          simp [create, hst, hpool, hacq, hmeta, createSend, hsend, hrecv]
      · rw [Bool.not_eq_true] at hsend
        simp [create, hst, hpool, hacq, hmeta, createSend, hsend]
    · intro hsend hrecv
      simp [create, hst, hpool, hacq, hmeta, createSend, hsend, hrecv]

/-- A live compositor environment for the reuse witness. -/
def liveCompositorEnv : CreateEnv :=
  ⟨true, true, .ok gbmExpectedBuffer, true, true⟩

/-- C10: witness — a supplied buffer with the concrete descriptor meta is reused
and reported as filled without a pool acquisition. -/
theorem create_reuses_supplied_buffer_witness :
    (create liveCompositorEnv (some gbmExpectedBuffer)).acquiredFromPool = false ∧
    (create liveCompositorEnv (some gbmExpectedBuffer)).sentBuffer = some gbmDescriptor ∧
    (create liveCompositorEnv (some gbmExpectedBuffer)).result = .ok .filledBuffer := by
  have h := (create_reuses_supplied_buffer liveCompositorEnv rfl rfl).1
    gbmExpectedBuffer gbmDescriptor rfl
  exact ⟨h.1, h.2.1, h.2.2 rfl rfl⟩

end Sunrise
